import Mathlib

/-!
Shallow embedding of `src/simpleperf/simpleperf.py` (a simple network
throughput measurement tool) and proofs about it.

Modelling conventions:
* Python floats are modelled as exact rationals (ℚ); the numeric content of
  an f-string rendering such as `f"{x:.1f}"` is modelled as the integer of
  tenths `round (x * 10)` (similarly `:.0f` and `:.2f`).
* `print(...)` calls that emit a statistics line are modelled as emitting the
  corresponding `StatRecord` value into an output list; purely cosmetic
  header/divider lines are not modelled.
* Wall-clock readings (`time.time()`) are external inputs: each client loop
  iteration consumes a `Tick` holding the three clock readings of that
  iteration (all relative to `start_time`, which is normalised to 0).
* Socket reads on the server are external inputs: a list of `ReadEvent`s,
  either a successfully received chunk (a byte list) or a raised socket
  error.  A loop that would keep calling `recv` after the event list is
  exhausted is modelled as returning `none` ("still running").
-/

namespace Simpleperf

/-- Constant `CHUNK_SIZE = 1000` (simpleperf.py line 6). -/
def CHUNK_SIZE : ℕ := 1000

/-- The `-f` (`--format`) command line choice: `B`, `KB` or `MB`. -/
inductive Format where
  | B
  | KB
  | MB
  deriving DecidableEq, Repr

/-- Numeric content of Python `f"{x:.1f}"`: the rendered tenths. -/
def fmt1 (x : ℚ) : ℤ := round (x * 10)

/-- Numeric content of Python `f"{x:.0f}"`: the rendered integer. -/
def fmt0 (x : ℚ) : ℤ := round x

/-- Numeric content of Python `f"{x:.2f}"`: the rendered hundredths. -/
def fmt2 (x : ℚ) : ℤ := round (x * 100)

/-- The `bytes_transfered` column of a stats line, tagged by unit
(simpleperf.py lines 38-43). -/
inductive BytesField where
  | B (n : ℤ)
  | KB (n : ℤ)
  | MB (hundredths : ℤ)
  deriving DecidableEq, Repr

/-- One statistics line, as computed by `print_statistics`
(simpleperf.py lines 38-55): identity string, interval window bounds in
tenths of seconds, byte-count column, bandwidth column in tenths of Mbps. -/
structure StatRecord where
  id : String
  intervalLoTenths : ℤ
  intervalHiTenths : ℤ
  bytesField : BytesField
  bandwidthTenths : ℤ
  deriving DecidableEq, Repr

/-- What a call to `print_statistics` gives back: the Python function returns
`None` (`ret`) and prints one line (`output`). -/
structure PrintResult where
  ret : Option StatRecord
  output : List StatRecord
  deriving DecidableEq, Repr

/-- The error message of the `ValueError` raised by `print_statistics`
(simpleperf.py line 35). -/
def invalidParamsMsg : String :=
  "Invalid input parameters: bytes_sent must positive, interval_size must be positive"

/-- The record content computed by `print_statistics` once the input check
has passed (simpleperf.py lines 38-52). -/
def statRecord (client_address : String × ℕ) (bytes_sent : ℤ) (interval_number : ℕ)
    (interval_size : ℚ) (format : Format) : StatRecord :=
  { id := client_address.1 ++ ":" ++ toString client_address.2
    intervalLoTenths := fmt1 ((interval_number : ℚ) * interval_size)
    intervalHiTenths := fmt1 ((interval_number : ℚ) * interval_size + interval_size)
    bytesField :=
      match format with
      | Format.B => BytesField.B bytes_sent
      | Format.KB => BytesField.KB (fmt0 ((bytes_sent : ℚ) / (CHUNK_SIZE : ℚ)))
      | Format.MB =>
          BytesField.MB (fmt2 ((bytes_sent : ℚ) / (CHUNK_SIZE : ℚ) / (CHUNK_SIZE : ℚ)))
    bandwidthTenths :=
      fmt1 ((bytes_sent : ℚ) / (CHUNK_SIZE : ℚ) / (CHUNK_SIZE : ℚ) / interval_size * 8) }

/-- Function `print_statistics` (simpleperf.py lines 8-55): validates its inputs
(raising `ValueError` when `bytes_sent < 0 or interval_size <= 0`), then
prints one formatted statistics line and returns `None`. -/
def print_statistics (client_address : String × ℕ) (bytes_sent : ℤ) (interval_number : ℕ)
    (interval_size : ℚ) (format : Format) : Except String PrintResult :=
  if bytes_sent < 0 ∨ interval_size ≤ 0 then
    Except.error invalidParamsMsg
  else
    Except.ok { ret := none
                output := [statRecord client_address bytes_sent interval_number interval_size format] }

/-- Helper: on valid inputs `print_statistics` succeeds with the computed
record printed and `None` returned. -/
theorem print_statistics_ok (client_address : String × ℕ) (bytes_sent : ℤ)
    (interval_number : ℕ) (interval_size : ℚ) (format : Format)
    (hb : 0 ≤ bytes_sent) (hs : 0 < interval_size) :
    print_statistics client_address bytes_sent interval_number interval_size format =
      Except.ok { ret := none
                  output := [statRecord client_address bytes_sent interval_number
                              interval_size format] } := by
  unfold print_statistics
  rw [if_neg]
  push_neg
  exact ⟨hb, hs⟩

/-- C1: for every endpoint, every `bytes_sent ≥ 0`, every `interval_size > 0`
and every display unit, `print_statistics` produces the record whose bandwidth
field is `bytes_sent / CHUNK_SIZE² / interval_size * 8` rendered to one
decimal, a value independent of the chosen unit; the formatter is a
deterministic function of its inputs. -/
theorem bandwidth_field_unit_independent (client_address : String × ℕ) (bytes_sent : ℤ)
    (interval_number : ℕ) (interval_size : ℚ) (format : Format)
    (hb : 0 ≤ bytes_sent) (hs : 0 < interval_size) :
    print_statistics client_address bytes_sent interval_number interval_size format =
      Except.ok { ret := none
                  output := [statRecord client_address bytes_sent interval_number
                              interval_size format] } ∧
    (statRecord client_address bytes_sent interval_number interval_size format).bandwidthTenths =
      fmt1 ((bytes_sent : ℚ) / ((CHUNK_SIZE : ℚ)) ^ 2 / interval_size * 8) ∧
    (∀ format2 : Format,
      (statRecord client_address bytes_sent interval_number interval_size
        format2).bandwidthTenths =
      (statRecord client_address bytes_sent interval_number interval_size
        format).bandwidthTenths) := by
  refine ⟨print_statistics_ok _ _ _ _ _ hb hs, ?_, ?_⟩
  · show fmt1 ((bytes_sent : ℚ) / (CHUNK_SIZE : ℚ) / (CHUNK_SIZE : ℚ) / interval_size * 8) = _
    congr 1
    ring
  · intro format2
    rfl

/-- Witness for C1 at a concrete input. -/
theorem bandwidth_field_unit_independent_witness :
    (0 : ℤ) ≤ 2500000 ∧ (0 : ℚ) < 2 ∧
    (statRecord ("10.0.0.1", 5001) 2500000 0 2 Format.KB).bandwidthTenths =
      fmt1 ((2500000 : ℚ) / ((CHUNK_SIZE : ℚ)) ^ 2 / 2 * 8) := by
  refine ⟨by norm_num, by norm_num, ?_⟩
  exact (bandwidth_field_unit_independent ("10.0.0.1", 5001) 2500000 0 2 Format.KB
    (by norm_num) (by norm_num)).2.1

/-- C6: `print_statistics` raises exactly when `bytes_sent < 0` or
`interval_size ≤ 0`, producing no record before the error; on all valid
inputs it does not raise. -/
theorem print_statistics_precondition (client_address : String × ℕ) (bytes_sent : ℤ)
    (interval_number : ℕ) (interval_size : ℚ) (format : Format) :
    ((bytes_sent < 0 ∨ interval_size ≤ 0) →
      print_statistics client_address bytes_sent interval_number interval_size format =
        Except.error invalidParamsMsg) ∧
    ((0 ≤ bytes_sent ∧ 0 < interval_size) →
      print_statistics client_address bytes_sent interval_number interval_size format =
        Except.ok { ret := none
                    output := [statRecord client_address bytes_sent interval_number
                                interval_size format] }) := by
  constructor
  · intro h
    unfold print_statistics
    rw [if_pos h]
  · intro h
    exact print_statistics_ok _ _ _ _ _ h.1 h.2

/-- Witness for C6 at concrete inputs (one invalid, one valid). -/
theorem print_statistics_precondition_witness :
    print_statistics ("10.0.0.1", 5001) (-1) 0 1 Format.MB =
      Except.error invalidParamsMsg ∧
    print_statistics ("10.0.0.1", 5001) 1000 0 1 Format.MB =
      Except.ok { ret := none
                  output := [statRecord ("10.0.0.1", 5001) 1000 0 1 Format.MB] } :=
  ⟨(print_statistics_precondition ("10.0.0.1", 5001) (-1) 0 1 Format.MB).1
      (Or.inl (by norm_num)),
   (print_statistics_precondition ("10.0.0.1", 5001) 1000 0 1 Format.MB).2
      ⟨by norm_num, by norm_num⟩⟩

/-- C7 counterexample: `print_statistics` is not side-effect free — at a
concrete valid input it prints one line itself (non-empty output) and
returns `None` to the caller, rather than returning the record and printing
nothing. -/
theorem print_statistics_prints_counterexample :
    print_statistics ("10.0.0.1", 5001) 1000 0 1 Format.B =
      Except.ok { ret := none
                  output := [statRecord ("10.0.0.1", 5001) 1000 0 1 Format.B] } ∧
    ({ ret := none
       output := [statRecord ("10.0.0.1", 5001) 1000 0 1 Format.B] } :
        PrintResult).output.length = 1 :=
  ⟨print_statistics_ok ("10.0.0.1", 5001) 1000 0 1 Format.B (by norm_num) (by norm_num),
   rfl⟩

/-- C7 amended: on every valid input `print_statistics` prints exactly one
formatted record as a side effect and returns `None`; the caller receives no
record to emit. -/
theorem print_statistics_prints_itself (client_address : String × ℕ) (bytes_sent : ℤ)
    (interval_number : ℕ) (interval_size : ℚ) (format : Format)
    (hb : 0 ≤ bytes_sent) (hs : 0 < interval_size) :
    ∃ pr, print_statistics client_address bytes_sent interval_number interval_size format =
        Except.ok pr ∧
      pr.output = [statRecord client_address bytes_sent interval_number interval_size format] ∧
      pr.ret = none :=
  ⟨_, print_statistics_ok _ _ _ _ _ hb hs, rfl, rfl⟩

/-- Witness for the C7 amended theorem at a concrete input. -/
theorem print_statistics_prints_itself_witness :
    (0 : ℤ) ≤ 3000 ∧ (0 : ℚ) < 2 ∧
    ∃ pr, print_statistics ("10.0.0.1", 5001) 3000 0 2 Format.KB = Except.ok pr ∧
      pr.output = [statRecord ("10.0.0.1", 5001) 3000 0 2 Format.KB] ∧ pr.ret = none :=
  ⟨by norm_num, by norm_num,
   print_statistics_prints_itself ("10.0.0.1", 5001) 3000 0 2 Format.KB (by norm_num)
     (by norm_num)⟩

/-! ### Server side: `handle_client` (simpleperf.py lines 111-162) -/

/-- One `client_socket.recv(CHUNK_SIZE)` outcome: either a chunk of bytes
(possibly empty, which is what `recv` returns once the peer has closed), or a
raised socket error. -/
inductive ReadEvent where
  | chunk (data : List ℕ)
  | err
  deriving DecidableEq, Repr

/-- The marker check of simpleperf.py line 147, comparing the trailing bytes
of the chunk just read against the 3-byte marker BYE: the Python slice of
the last three elements is the last three bytes when the chunk has at least
3 and the whole (shorter) buffer otherwise, which `List.drop (length - 3)`
reproduces thanks to truncated subtraction.  The marker BYE is the byte list
`[66, 89, 69]`. -/
def suffixBye (data : List ℕ) : Bool :=
  data.drop (data.length - 3) == [66, 89, 69]

/-- The observable result of one `handle_client` session once it has exited:
whether `ACK:BYE` was sent, the statistics records printed, the final
`bytes_received` counter, whether `client_socket.close()` ran (the `finally`
block), and whether an exception propagated out. -/
structure ServerOutcome where
  ackSent : Bool
  output : List StatRecord
  bytesReceived : ℕ
  closed : Bool
  errored : Bool
  deriving DecidableEq, Repr

/-- The `while True` receive loop of `handle_client` (simpleperf.py lines
141-159), driven by the list of pending read events, carrying the
`bytes_received` accumulator.  `tEnd` is the value `time.time() - start_time`
takes when the marker is detected.  Returns `none` when the event list runs
out with the loop still running (the code would block in `recv` again); on
every genuine exit the `finally` block closes the socket, so `closed := true`
everywhere an outcome is built. -/
def recvLoop (client_address : String × ℕ) (format : Format) (tEnd : ℚ) :
    List ReadEvent → ℕ → Option ServerOutcome
  | [], _ => none
  | ReadEvent.err :: _, bytes_received =>
      -- socket error: the exception propagates, `finally` closes the socket,
      -- no acknowledgement and no record on this path
      some { ackSent := false, output := [], bytesReceived := bytes_received
             closed := true, errored := true }
  | ReadEvent.chunk data :: rest, bytes_received =>
      let acc := bytes_received + data.length
      if suffixBye data then
        -- marker seen: send the ACK:BYE bytes, then print the summary statistics;
        -- if `print_statistics` raises, the ack has already been sent and
        -- `finally` still closes the socket
        match print_statistics client_address (acc : ℤ) 0 tEnd format with
        | Except.ok pr =>
            some { ackSent := true, output := pr.output, bytesReceived := acc
                   closed := true, errored := false }
        | Except.error _ =>
            some { ackSent := true, output := [], bytesReceived := acc
                   closed := true, errored := true }
      else
        recvLoop client_address format tEnd rest acc

/-- Function `handle_client` (simpleperf.py lines 111-162): run the receive loop with
`bytes_received = 0`. -/
def handle_client (client_address : String × ℕ) (format : Format) (tEnd : ℚ)
    (events : List ReadEvent) : Option ServerOutcome :=
  recvLoop client_address format tEnd events 0

/-- Helper: chunks whose suffix is not the marker are skipped, only adding
their length to the accumulator. -/
theorem recvLoop_skip (client_address : String × ℕ) (format : Format) (tEnd : ℚ)
    (ds : List (List ℕ)) (hds : ∀ d ∈ ds, suffixBye d = false)
    (evs : List ReadEvent) (acc : ℕ) :
    recvLoop client_address format tEnd (ds.map ReadEvent.chunk ++ evs) acc =
      recvLoop client_address format tEnd evs (acc + (ds.map List.length).sum) := by
  induction ds generalizing acc with
  | nil => simp
  | cons d ds ih =>
      have hd : suffixBye d = false := hds d (List.mem_cons_self d ds)
      have hrest : ∀ d2 ∈ ds, suffixBye d2 = false :=
        fun d2 h2 => hds d2 (List.mem_cons_of_mem d h2)
      have hstep : recvLoop client_address format tEnd
          ((d :: ds).map ReadEvent.chunk ++ evs) acc =
          recvLoop client_address format tEnd (ds.map ReadEvent.chunk ++ evs)
            (acc + d.length) := by
        simp only [List.map_cons, List.cons_append, recvLoop, hd, Bool.false_eq_true,
          if_false]
        rfl
      rw [hstep, ih hrest (acc + d.length), List.map_cons, List.sum_cons]
      congr 1
      omega

/-- C3: the receiver detects end-of-stream by a suffix match on the current
read only: after any sequence of reads not ending in `BYE`, the first read
whose trailing 3 bytes equal `BYE` makes it send `ACK:BYE` and emit exactly
one summary record — interval index 0 (window `[0, tEnd)`), interval length
`tEnd` (the elapsed session time), byte count the total received including
the marker bytes — and nothing else. -/
theorem marker_detection_summary (client_address : String × ℕ) (format : Format)
    (tEnd : ℚ) (htEnd : 0 < tEnd)
    (ds : List (List ℕ)) (hds : ∀ d ∈ ds, suffixBye d = false)
    (dl : List ℕ) (hdl : suffixBye dl = true) (rest : List ReadEvent) :
    handle_client client_address format tEnd
        (ds.map ReadEvent.chunk ++ ReadEvent.chunk dl :: rest) =
      some { ackSent := true
             output := [statRecord client_address
                         (((ds.map List.length).sum + dl.length : ℕ) : ℤ) 0 tEnd format]
             bytesReceived := (ds.map List.length).sum + dl.length
             closed := true
             errored := false } := by
  unfold handle_client
  rw [recvLoop_skip client_address format tEnd ds hds _ 0]
  simp only [Nat.zero_add, recvLoop, hdl, if_true]
  rw [print_statistics_ok client_address (((ds.map List.length).sum + dl.length : ℕ) : ℤ)
    0 tEnd format (Int.ofNat_nonneg _) htEnd]

/-- Witness for C3: two data chunks then a chunk ending in `BYE`. -/
theorem marker_detection_summary_witness :
    (0 : ℚ) < 2 ∧
    (∀ d ∈ [[48, 48, 48], [48]], suffixBye d = false) ∧
    suffixBye [48, 66, 89, 69] = true ∧
    handle_client ("10.0.0.2", 6001) Format.KB 2
        ([[48, 48, 48], [48]].map ReadEvent.chunk ++
          ReadEvent.chunk [48, 66, 89, 69] :: []) =
      some { ackSent := true
             output := [statRecord ("10.0.0.2", 6001)
                         ((([[48, 48, 48], [48]].map List.length).sum + 4 : ℕ) : ℤ)
                         0 2 Format.KB]
             bytesReceived := ([[48, 48, 48], [48]].map List.length).sum + 4
             closed := true
             errored := false } :=
  ⟨by norm_num, by decide, by decide,
   marker_detection_summary ("10.0.0.2", 6001) Format.KB 2 (by norm_num)
     [[48, 48, 48], [48]] (by decide) [48, 66, 89, 69] (by decide) []⟩

/-- C4: the code at the failing input — a peer that closes without ever
sending `BYE`, so every `recv` returns the empty byte string.  However many
such empty reads arrive, the receive loop never exits: no acknowledgement, no
record, and the `finally` close never runs, so the session does not abort as
the specification claims. -/
theorem eof_without_marker_never_exits (client_address : String × ℕ) (format : Format)
    (tEnd : ℚ) (n : ℕ) (acc : ℕ) :
    recvLoop client_address format tEnd (List.replicate n (ReadEvent.chunk [])) acc =
      none := by
  induction n generalizing acc with
  | zero => rfl
  | succ n ih =>
      simp only [List.replicate_succ, recvLoop]
      rw [if_neg (by decide)]
      exact ih _

/-- Helper: every outcome the receive loop produces, from any accumulator
value, has the socket closed. -/
theorem recvLoop_closes (client_address : String × ℕ) (format : Format)
    (tEnd : ℚ) (events : List ReadEvent) :
    ∀ acc o, recvLoop client_address format tEnd events acc = some o →
      o.closed = true := by
  induction events with
  | nil => intro acc o h; exact absurd h (by simp [recvLoop])
  | cons ev rest ih =>
      intro acc o h
      cases ev with
      | err =>
          simp only [recvLoop, Option.some.injEq] at h
          rw [← h]
      | chunk data =>
          simp only [recvLoop] at h
          by_cases hBye : suffixBye data
          · rw [if_pos hBye] at h
            cases hps : print_statistics client_address ((acc + data.length : ℕ) : ℤ) 0
                tEnd format with
            | ok pr =>
                rw [hps] at h
                simp only [Option.some.injEq] at h
                rw [← h]
            | error e =>
                rw [hps] at h
                simp only [Option.some.injEq] at h
                rw [← h]
          · rw [if_neg hBye] at h
            exact ih _ _ h

/-- C9: on every path on which the `handle_client` session actually exits —
marker detected and summary printed, read error, or the statistics call
itself raising — the connection handle is closed (the `finally` block ran). -/
theorem handle_client_always_closes (client_address : String × ℕ) (format : Format)
    (tEnd : ℚ) (events : List ReadEvent) (o : ServerOutcome)
    (h : handle_client client_address format tEnd events = some o) :
    o.closed = true :=
  recvLoop_closes client_address format tEnd events 0 o h

/-- Witness for C9: a session that exits through the read-error path has its
socket closed. -/
theorem handle_client_always_closes_witness :
    handle_client ("10.0.0.2", 6001) Format.B 1 [ReadEvent.err] =
      some { ackSent := false, output := [], bytesReceived := 0
             closed := true, errored := true } ∧
    ({ ackSent := false, output := [], bytesReceived := 0
       closed := true, errored := true } : ServerOutcome).closed = true :=
  ⟨rfl, handle_client_always_closes ("10.0.0.2", 6001) Format.B 1 [ReadEvent.err] _ rfl⟩

/-! ### Client side: `client` (simpleperf.py lines 164-263) -/

/-- Python `s[:-2]` on a string modelled as its character list: everything
but the last two characters (empty when the string is shorter than that). -/
def pyDropLast2 (s : List Char) : List Char :=
  s.take (s.length - 2)

/-- Python `s.endswith(suffix)`: the trailing characters of `s` equal
`suffix` (false when `s` is shorter than `suffix`). -/
def pyEndsWith (s suffix : List Char) : Bool :=
  s.drop (s.length - suffix.length) == suffix

/-- Value of one decimal digit character, `none` for a non-digit. -/
def digitVal (c : Char) : Option ℕ :=
  if c.isDigit then some (c.toNat - 48) else none

/-- Accumulating decimal parse of a digit run, failing on a non-digit. -/
def pyDigitsAux : List Char → ℕ → Option ℕ
  | [], acc => some acc
  | c :: cs, acc =>
      match digitVal c with
      | none => none
      | some d => pyDigitsAux cs (acc * 10 + d)

/-- Python `int(s)` as the client uses it: an optional sign followed by a
non-empty run of decimal digits; anything else raises, modelled as `none`. -/
def pyInt : List Char → Option ℤ
  | [] => none
  | '-' :: cs =>
      if cs.isEmpty then none
      else (pyDigitsAux cs 0).map (fun n => -(n : ℤ))
  | '+' :: cs =>
      if cs.isEmpty then none
      else (pyDigitsAux cs 0).map (fun n => (n : ℤ))
  | cs => (pyDigitsAux cs 0).map (fun n => (n : ℤ))

/-- The conversion of the `-n` (`args.num`) argument (simpleperf.py lines
223-228): `num_bytes = int(args.num[:-2])`, multiplied by `CHUNK_SIZE` when
the string ends in `KB` and by `CHUNK_SIZE * CHUNK_SIZE` when it ends in
`MB`; any other suffix gets no multiplier, yet the two final characters are
stripped regardless. -/
def parseNumBytes (s : List Char) : Option ℤ :=
  match pyInt (pyDropLast2 s) with
  | none => none
  | some n =>
      if pyEndsWith s ['K', 'B'] then some (n * (CHUNK_SIZE : ℤ))
      else if pyEndsWith s ['M', 'B'] then some (n * ((CHUNK_SIZE : ℤ) * (CHUNK_SIZE : ℤ)))
      else some n

/-- The three `time.time()` readings of one client loop iteration, as elapsed
seconds since `start_time` (normalised to 0): `t1` sets `total_time`, `t2` is
read for `time_since_last_interval`, and `t3` becomes the new
`last_interval_start_time` when an interval flush happens. -/
structure Tick where
  t1 : ℚ
  t2 : ℚ
  t3 : ℚ
  deriving DecidableEq, Repr

/-- The mutable locals of the `client` send loop (simpleperf.py lines
211-216), with times relative to `start_time`. -/
structure ClientState where
  totalSent : ℕ
  intervalSent : ℕ
  totalTime : ℚ
  intervalNumber : ℕ
  lastIntervalStart : ℚ
  deriving DecidableEq, Repr

/-- Initial client loop state (simpleperf.py lines 211-216):
`total_bytes_sent = 0`, `interval_sent = 0`, `total_time = 0`,
`interval_number = 0`, `last_interval_start_time = start_time`. -/
def initState : ClientState :=
  { totalSent := 0, intervalSent := 0, totalTime := 0
    intervalNumber := 0, lastIntervalStart := 0 }

/-- Python truthiness of `args.interval` (an `int` or `None`):
`if interval_duration:` is taken exactly when the value is present and
non-zero. -/
def truthyInterval : Option ℤ → Bool
  | none => false
  | some k => k != 0

/-- The stop check at the top of the send loop (simpleperf.py line 233):
`total_time > args.time or (args.num and total_bytes_sent > num_bytes)`.
`numBytes` is `some` exactly when `args.num` is truthy (in which case
`num_bytes` was computed before the loop). -/
def stopCond (timeLimit : ℚ) (numBytes : Option ℤ) (st : ClientState) : Bool :=
  decide (st.totalTime > timeLimit) ||
    (match numBytes with
     | none => false
     | some n => decide ((st.totalSent : ℤ) > n))

/-- One send (simpleperf.py lines 236-240): add `CHUNK_SIZE` to both byte
counters and record the clock reading into `total_time`. -/
def sendChunk (tk : Tick) (st : ClientState) : ClientState :=
  { st with totalSent := st.totalSent + CHUNK_SIZE
            intervalSent := st.intervalSent + CHUNK_SIZE
            totalTime := tk.t1 }

/-- The interval-flush check and flush after one send (simpleperf.py lines
243-248): when `interval_duration` is truthy and
`time_since_last_interval > interval_duration`, print the interval record
(a `ValueError` from it propagates), advance the interval index, reset the
interval accumulator and record a new boundary timestamp. -/
def stepSend (client_address : String × ℕ) (format : Format) (intervalD : Option ℤ)
    (tk : Tick) (st : ClientState) : Except String (ClientState × List StatRecord) :=
  if truthyInterval intervalD &&
      decide (tk.t2 - (sendChunk tk st).lastIntervalStart > ((intervalD.getD 0 : ℤ) : ℚ)) then
    match print_statistics client_address ((sendChunk tk st).intervalSent : ℤ)
        (sendChunk tk st).intervalNumber ((intervalD.getD 0 : ℤ) : ℚ) format with
    | Except.ok pr =>
        Except.ok ({ sendChunk tk st with intervalNumber := (sendChunk tk st).intervalNumber + 1, intervalSent := 0, lastIntervalStart := tk.t3 }, pr.output)
    | Except.error e => Except.error e
  else
    Except.ok (sendChunk tk st, [])

/-- The `while True` send loop (simpleperf.py lines 231-248), driven by the
clock readings of successive iterations.  Returns the final state, the
interval records printed during the loop, and whether the loop exited through
its `break` (`true`) or ran out of supplied clock readings (`false`,
a fuel artefact of the model). -/
def clientLoop (client_address : String × ℕ) (format : Format) (timeLimit : ℚ)
    (numBytes : Option ℤ) (intervalD : Option ℤ) :
    List Tick → ClientState → Except String (ClientState × List StatRecord × Bool)
  | [], st =>
      if stopCond timeLimit numBytes st then Except.ok (st, [], true)
      else Except.ok (st, [], false)
  | tk :: rest, st =>
      if stopCond timeLimit numBytes st then Except.ok (st, [], true)
      else
        match stepSend client_address format intervalD tk st with
        | Except.error e => Except.error e
        | Except.ok (st2, recs) =>
            match clientLoop client_address format timeLimit numBytes intervalD rest st2 with
            | Except.error e => Except.error e
            | Except.ok (fin, recs2, stopped) => Except.ok (fin, recs ++ recs2, stopped)

/-- Everything the `client` function emits and ends with
(simpleperf.py lines 231-263): the interval records of the loop, the conditional
post-loop flush (lines 250-253), and the final whole-session record
(line 263).  The `BYE`/`ACK` exchange and the socket close sit between the
flush and the final record and carry no statistics, so they are not
modelled. -/
structure ClientResult where
  finalState : ClientState
  loopRecords : List StatRecord
  postLoopFlush : List StatRecord
  finalRecord : List StatRecord
  stoppedByCond : Bool
  deriving DecidableEq, Repr

/-- The `client` function from the start of the send loop on
(simpleperf.py lines 231-263): run the loop from `initState`, then, only
`if interval_duration:`, print the pending interval record once; finally
print the whole-session record `print_statistics(client_address,
total_bytes_sent, 0, total_time, args.format)`.  Any `ValueError` raised by
`print_statistics` propagates and aborts the run. -/
def clientRun (client_address : String × ℕ) (format : Format) (timeLimit : ℚ)
    (numBytes : Option ℤ) (intervalD : Option ℤ) (ticks : List Tick) :
    Except String ClientResult :=
  match clientLoop client_address format timeLimit numBytes intervalD ticks initState with
  | Except.error e => Except.error e
  | Except.ok (fin, recs, stopped) =>
      let flushRes : Except String (List StatRecord) :=
        if truthyInterval intervalD then
          match print_statistics client_address (fin.intervalSent : ℤ) fin.intervalNumber
              ((intervalD.getD 0 : ℤ) : ℚ) format with
          | Except.ok pr => Except.ok pr.output
          | Except.error e => Except.error e
        else Except.ok []
      match flushRes with
      | Except.error e => Except.error e
      | Except.ok flush =>
          match print_statistics client_address (fin.totalSent : ℤ) 0 fin.totalTime format with
          | Except.error e => Except.error e
          | Except.ok pr =>
              Except.ok { finalState := fin, loopRecords := recs, postLoopFlush := flush
                          finalRecord := pr.output, stoppedByCond := stopped }

/-- Helper: when the loop reports that it stopped through its `break`, the
stop condition holds at the state it stopped in. -/
theorem clientLoop_stop_sound (client_address : String × ℕ) (format : Format)
    (timeLimit : ℚ) (numBytes : Option ℤ) (intervalD : Option ℤ) :
    ∀ (ticks : List Tick) (st fin : ClientState) (recs : List StatRecord),
      clientLoop client_address format timeLimit numBytes intervalD ticks st =
        Except.ok (fin, recs, true) →
      stopCond timeLimit numBytes fin = true := by
  intro ticks
  induction ticks with
  | nil =>
      intro st fin recs h
      by_cases hstop : stopCond timeLimit numBytes st = true
      · rw [clientLoop, if_pos hstop] at h
        simp only [Except.ok.injEq, Prod.mk.injEq] at h
        rw [← h.1]
        exact hstop
      · rw [clientLoop, if_neg hstop] at h
        simp at h
  | cons tk rest ih =>
      intro st fin recs h
      by_cases hstop : stopCond timeLimit numBytes st = true
      · rw [clientLoop, if_pos hstop] at h
        simp only [Except.ok.injEq, Prod.mk.injEq] at h
        rw [← h.1]
        exact hstop
      · rw [clientLoop, if_neg hstop] at h
        split at h
        · exact absurd h (by simp)
        · next st2 recs0 heq1 =>
            split at h
            · exact absurd h (by simp)
            · next fin0 recs2 stopped0 heq2 =>
                simp only [Except.ok.injEq, Prod.mk.injEq] at h
                obtain ⟨h1, _, h3⟩ := h
                rw [← h1]
                exact ih st2 fin0 recs2 (by rw [heq2, h3])

/-- C2: the sender loop stops exactly when at least one of its two limits is
exceeded, composed as OR — the stop condition is `total_time > timeLimit`,
or, when a byte target is configured, `total_bytes_sent > target`; whenever
the condition holds the loop stops at once without sending; whenever the
loop stopped the condition holds at the stopping state; with no byte target
it never stops before elapsed time strictly exceeds the duration; with a
byte target it stops as soon as cumulative bytes exceed the target, whatever
the elapsed time. -/
theorem sender_stops_iff_limit_exceeded (timeLimit : ℚ) (numBytes : Option ℤ)
    (st : ClientState) :
    (stopCond timeLimit numBytes st = true ↔
      (timeLimit < st.totalTime ∨ ∃ n, numBytes = some n ∧ n < (st.totalSent : ℤ))) ∧
    (∀ client_address format intervalD ticks fin recs,
      clientLoop client_address format timeLimit numBytes intervalD ticks st =
        Except.ok (fin, recs, true) →
      stopCond timeLimit numBytes fin = true) ∧
    (stopCond timeLimit numBytes st = true →
      ∀ client_address format intervalD ticks,
        clientLoop client_address format timeLimit numBytes intervalD ticks st =
          Except.ok (st, [], true)) ∧
    (numBytes = none →
      ∀ client_address format intervalD ticks fin recs,
        clientLoop client_address format timeLimit numBytes intervalD ticks st =
          Except.ok (fin, recs, true) →
        timeLimit < fin.totalTime) ∧
    (∀ n, numBytes = some n → n < (st.totalSent : ℤ) →
      stopCond timeLimit numBytes st = true) := by
  have hiff : ∀ st2 : ClientState, stopCond timeLimit numBytes st2 = true ↔
      (timeLimit < st2.totalTime ∨ ∃ n, numBytes = some n ∧ n < (st2.totalSent : ℤ)) := by
    intro st2
    cases numBytes with
    | none => simp [stopCond]
    | some n => simp [stopCond]
  refine ⟨hiff st, ?_, ?_, ?_, ?_⟩
  · intro client_address format intervalD ticks fin recs h
    exact clientLoop_stop_sound client_address format timeLimit numBytes intervalD
      ticks st fin recs h
  · intro h client_address format intervalD ticks
    cases ticks with
    | nil => rw [clientLoop, if_pos h]
    | cons tk rest => rw [clientLoop, if_pos h]
  · intro hnone client_address format intervalD ticks fin recs h
    have hc := clientLoop_stop_sound client_address format timeLimit numBytes intervalD
      ticks st fin recs h
    rcases (hiff fin).mp hc with h1 | ⟨n, hn, _⟩
    · exact h1
    · rw [hnone] at hn
      exact absurd hn (by simp)
  · intro n hn hlt
    exact (hiff st).mpr (Or.inr ⟨n, hn, hlt⟩)

/-- Witness for C2: a state whose byte count exceeds the 500-byte target
while elapsed time is still below the 1-second duration satisfies the stop
condition, and the loop stops immediately on it. -/
theorem sender_stops_iff_limit_exceeded_witness :
    stopCond 1 (some 500) ⟨1000, 1000, 1/2, 0, 0⟩ = true ∧
    clientLoop ("10.0.0.4", 8001) Format.B 1 (some 500) none [⟨1, 1, 1⟩]
        ⟨1000, 1000, 1/2, 0, 0⟩ =
      Except.ok (⟨1000, 1000, 1/2, 0, 0⟩, [], true) :=
  ⟨(sender_stops_iff_limit_exceeded 1 (some 500) ⟨1000, 1000, 1/2, 0, 0⟩).2.2.2.2 500 rfl
      (by norm_num),
   (sender_stops_iff_limit_exceeded 1 (some 500) ⟨1000, 1000, 1/2, 0, 0⟩).2.2.1
      ((sender_stops_iff_limit_exceeded 1 (some 500) ⟨1000, 1000, 1/2, 0, 0⟩).2.2.2.2 500 rfl
        (by norm_num)) ("10.0.0.4", 8001) Format.B none [⟨1, 1, 1⟩]⟩

/-- C5 counterexample: a sender run with no reporting interval configured
(`args.interval = None`) that stops with 2000 bytes pending in the partial
interval performs no post-loop flush at all — the flush after the loop is
conditional on a reporting interval being configured, not unconditional as
claimed. -/
theorem final_flush_not_unconditional :
    clientRun ("10.0.0.3", 7001) Format.MB 2 none none [⟨1, 1, 1⟩, ⟨3, 3, 3⟩] =
      Except.ok { finalState := ⟨2000, 2000, 3, 0, 0⟩
                  loopRecords := []
                  postLoopFlush := []
                  finalRecord := [statRecord ("10.0.0.3", 7001) 2000 0 3 Format.MB]
                  stoppedByCond := true } := by
  norm_num [clientRun, clientLoop, stepSend, sendChunk, stopCond, initState,
    truthyInterval, print_statistics, CHUNK_SIZE]

/-- C5 amended: the partial interval pending when the stop condition fires is
never flushed inside the loop (the loop breaks at once, emitting nothing);
after the loop it is flushed exactly once if a positive reporting interval is
configured — even when it holds zero bytes — and not at all when no
reporting interval was configured. -/
theorem final_flush_conditional (client_address : String × ℕ) (format : Format)
    (timeLimit : ℚ) (numBytes : Option ℤ) (intervalD : Option ℤ) (ticks : List Tick) :
    (∀ st, stopCond timeLimit numBytes st = true →
      clientLoop client_address format timeLimit numBytes intervalD ticks st =
        Except.ok (st, [], true)) ∧
    (truthyInterval intervalD = false →
      ∀ res, clientRun client_address format timeLimit numBytes intervalD ticks =
        Except.ok res → res.postLoopFlush = []) ∧
    (∀ k : ℤ, intervalD = some k → 0 < k →
      ∀ res, clientRun client_address format timeLimit numBytes intervalD ticks =
        Except.ok res →
      res.postLoopFlush = [statRecord client_address (res.finalState.intervalSent : ℤ)
        res.finalState.intervalNumber (k : ℚ) format]) := by
  refine ⟨?_, ?_, ?_⟩
  · intro st h
    cases ticks with
    | nil => rw [clientLoop, if_pos h]
    | cons tk rest => rw [clientLoop, if_pos h]
  · intro hf res h
    rw [clientRun] at h
    split at h
    · exact absurd h (by simp)
    · next fin recs stopped heq1 =>
        rw [hf] at h
        simp only [Bool.false_eq_true, if_false] at h
        split at h
        · exact absurd h (by simp)
        · next pr heq2 =>
            simp only [Except.ok.injEq] at h
            rw [← h]
  · intro k hk hkpos res h
    subst hk
    rw [clientRun] at h
    split at h
    · exact absurd h (by simp)
    · next fin recs stopped heq1 =>
        have htruthy : truthyInterval (some k) = true := by
          simp only [truthyInterval, bne_iff_ne, ne_eq, decide_not]
          omega
        rw [htruthy] at h
        simp only [if_true, Option.getD_some] at h
        rw [print_statistics_ok client_address (fin.intervalSent : ℤ) fin.intervalNumber
          ((k : ℤ) : ℚ) format (Int.ofNat_nonneg _) (by exact_mod_cast hkpos)] at h
        simp only [] at h
        split at h
        · exact absurd h (by simp)
        · next pr heq2 =>
            simp only [Except.ok.injEq] at h
            rw [← h]

/-- Witness for the C5 amended theorem: with no interval configured the loop
stops immediately on a satisfied stop condition, and a completed run has an
empty post-loop flush. -/
theorem final_flush_conditional_witness :
    clientLoop ("10.0.0.5", 9001) Format.B 0 none none [⟨1, 1, 1⟩] ⟨1000, 1000, 1, 0, 0⟩ =
      Except.ok (⟨1000, 1000, 1, 0, 0⟩, [], true) ∧
    clientRun ("10.0.0.5", 9001) Format.B 0 none none [⟨1, 1, 1⟩] =
      Except.ok { finalState := ⟨1000, 1000, 1, 0, 0⟩
                  loopRecords := []
                  postLoopFlush := []
                  finalRecord := [statRecord ("10.0.0.5", 9001) 1000 0 1 Format.B]
                  stoppedByCond := true } ∧
    ({ finalState := ⟨1000, 1000, 1, 0, 0⟩
       loopRecords := []
       postLoopFlush := []
       finalRecord := [statRecord ("10.0.0.5", 9001) 1000 0 1 Format.B]
       stoppedByCond := true } : ClientResult).postLoopFlush = [] := by
  have hrun : clientRun ("10.0.0.5", 9001) Format.B 0 none none [⟨1, 1, 1⟩] =
      Except.ok { finalState := ⟨1000, 1000, 1, 0, 0⟩
                  loopRecords := []
                  postLoopFlush := []
                  finalRecord := [statRecord ("10.0.0.5", 9001) 1000 0 1 Format.B]
                  stoppedByCond := true } := by
    norm_num [clientRun, clientLoop, stepSend, sendChunk, stopCond, initState,
      truthyInterval, print_statistics, CHUNK_SIZE]
  refine ⟨(final_flush_conditional ("10.0.0.5", 9001) Format.B 0 none none
      [⟨1, 1, 1⟩]).1 ⟨1000, 1000, 1, 0, 0⟩ (by norm_num [stopCond]), hrun, ?_⟩
  exact (final_flush_conditional ("10.0.0.5", 9001) Format.B 0 none none [⟨1, 1, 1⟩]).2.1
    rfl _ hrun

/-- Helper: one send step preserves `interval_sent ≤ total_bytes_sent`. -/
theorem stepSend_inv (client_address : String × ℕ) (format : Format)
    (intervalD : Option ℤ) (tk : Tick) (st st2 : ClientState) (recs : List StatRecord)
    (h : stepSend client_address format intervalD tk st = Except.ok (st2, recs))
    (hinv : st.intervalSent ≤ st.totalSent) :
    st2.intervalSent ≤ st2.totalSent := by
  rw [stepSend] at h
  by_cases hc : (truthyInterval intervalD &&
      decide (tk.t2 - (sendChunk tk st).lastIntervalStart >
        ((intervalD.getD 0 : ℤ) : ℚ))) = true
  · rw [if_pos hc] at h
    cases hps : print_statistics client_address ((sendChunk tk st).intervalSent : ℤ)
        (sendChunk tk st).intervalNumber ((intervalD.getD 0 : ℤ) : ℚ) format with
    | error e => rw [hps] at h; simp at h
    | ok pr =>
        rw [hps] at h
        simp only [Except.ok.injEq, Prod.mk.injEq] at h
        rw [← h.1]
        exact Nat.zero_le _
  · rw [if_neg hc] at h
    simp only [Except.ok.injEq, Prod.mk.injEq] at h
    rw [← h.1]
    simp only [sendChunk]
    exact Nat.add_le_add_right hinv CHUNK_SIZE

/-- Helper: the send loop preserves `interval_sent ≤ total_bytes_sent` from
any starting state to its final state. -/
theorem clientLoop_inv (client_address : String × ℕ) (format : Format)
    (timeLimit : ℚ) (numBytes : Option ℤ) (intervalD : Option ℤ) :
    ∀ (ticks : List Tick) (st fin : ClientState) (recs : List StatRecord) (stopped : Bool),
      clientLoop client_address format timeLimit numBytes intervalD ticks st =
        Except.ok (fin, recs, stopped) →
      st.intervalSent ≤ st.totalSent → fin.intervalSent ≤ fin.totalSent := by
  intro ticks
  induction ticks with
  | nil =>
      intro st fin recs stopped h hinv
      by_cases hstop : stopCond timeLimit numBytes st = true
      · rw [clientLoop, if_pos hstop] at h
        simp only [Except.ok.injEq, Prod.mk.injEq] at h
        rw [← h.1]
        exact hinv
      · rw [clientLoop, if_neg hstop] at h
        simp only [Except.ok.injEq, Prod.mk.injEq] at h
        rw [← h.1]
        exact hinv
  | cons tk rest ih =>
      intro st fin recs stopped h hinv
      by_cases hstop : stopCond timeLimit numBytes st = true
      · rw [clientLoop, if_pos hstop] at h
        simp only [Except.ok.injEq, Prod.mk.injEq] at h
        rw [← h.1]
        exact hinv
      · rw [clientLoop, if_neg hstop] at h
        split at h
        · exact absurd h (by simp)
        · next st2 recs0 heq1 =>
            split at h
            · exact absurd h (by simp)
            · next fin0 recs2 stopped0 heq2 =>
                simp only [Except.ok.injEq, Prod.mk.injEq] at h
                obtain ⟨h1, _, _⟩ := h
                rw [← h1]
                exact ih st2 fin0 recs2 stopped0 heq2
                  (stepSend_inv client_address format intervalD tk st st2 recs0
                    heq1 hinv)

/-- C8: `interval_sent ≤ total_bytes_sent` throughout a sender session —
it holds initially (both 0), each send step preserves it (both counters grow
by `CHUNK_SIZE`, a flush only resets the interval accumulator to 0), and the
loop carries it from any state to its final state. -/
theorem interval_le_total_invariant (client_address : String × ℕ) (format : Format)
    (timeLimit : ℚ) (numBytes : Option ℤ) (intervalD : Option ℤ) :
    initState.intervalSent ≤ initState.totalSent ∧
    (∀ tk st st2 recs,
      stepSend client_address format intervalD tk st = Except.ok (st2, recs) →
      st.intervalSent ≤ st.totalSent → st2.intervalSent ≤ st2.totalSent) ∧
    (∀ ticks st fin recs stopped,
      clientLoop client_address format timeLimit numBytes intervalD ticks st =
        Except.ok (fin, recs, stopped) →
      st.intervalSent ≤ st.totalSent → fin.intervalSent ≤ fin.totalSent) :=
  ⟨Nat.le_refl 0,
   fun tk st st2 recs h hinv =>
     stepSend_inv client_address format intervalD tk st st2 recs h hinv,
   fun ticks st fin recs stopped h hinv =>
     clientLoop_inv client_address format timeLimit numBytes intervalD ticks st fin recs
       stopped h hinv⟩

/-- Witness for C8 on a concrete two-iteration run. -/
theorem interval_le_total_invariant_witness :
    clientLoop ("10.0.0.6", 9002) Format.B 2 none none [⟨1, 1, 1⟩, ⟨3, 3, 3⟩] initState =
      Except.ok (⟨2000, 2000, 3, 0, 0⟩, [], true) ∧
    (⟨2000, 2000, 3, 0, 0⟩ : ClientState).intervalSent ≤
      (⟨2000, 2000, 3, 0, 0⟩ : ClientState).totalSent := by
  have hrun : clientLoop ("10.0.0.6", 9002) Format.B 2 none none [⟨1, 1, 1⟩, ⟨3, 3, 3⟩]
      initState = Except.ok (⟨2000, 2000, 3, 0, 0⟩, [], true) := by
    norm_num [clientLoop, stepSend, sendChunk, stopCond, initState, truthyInterval,
      CHUNK_SIZE]
  exact ⟨hrun,
    (interval_le_total_invariant ("10.0.0.6", 9002) Format.B 2 none none).2.2
      [⟨1, 1, 1⟩, ⟨3, 3, 3⟩] initState ⟨2000, 2000, 3, 0, 0⟩ [] true hrun (Nat.le_refl 0)⟩

/-- C10: when the byte-target string ends in `B` but not in `KB` or `MB`,
the parsed target is the integer value of the string with its final two
characters removed — no multiplier is applied — so the string `3000B` yields
a target of 300 bytes, not 3000. -/
theorem num_suffix_B_strips_two (s : List Char)
    (_hB : pyEndsWith s ['B'] = true)
    (hKB : pyEndsWith s ['K', 'B'] = false)
    (hMB : pyEndsWith s ['M', 'B'] = false) :
    parseNumBytes s = pyInt (pyDropLast2 s) ∧
    parseNumBytes ['3', '0', '0', '0', 'B'] = some 300 ∧
    parseNumBytes ['3', '0', '0', '0', 'B'] ≠ some 3000 := by
  refine ⟨?_, by decide, by decide⟩
  rw [parseNumBytes]
  cases hpi : pyInt (pyDropLast2 s) with
  | none => rfl
  | some n => simp [hKB, hMB]

/-- Witness for C10 at the string `3000B`. -/
theorem num_suffix_B_strips_two_witness :
    pyEndsWith ['3', '0', '0', '0', 'B'] ['B'] = true ∧
    parseNumBytes ['3', '0', '0', '0', 'B'] =
      pyInt (pyDropLast2 ['3', '0', '0', '0', 'B']) ∧
    pyInt (pyDropLast2 ['3', '0', '0', '0', 'B']) = some 300 :=
  ⟨by decide,
   (num_suffix_B_strips_two ['3', '0', '0', '0', 'B'] (by decide) (by decide)
      (by decide)).1,
   by decide⟩

end Simpleperf
